import Mathlib

/-!
# Report Catalog Service — shallow embedding

Embedding of `app/routers/report.py`: a CRUD router over a `Report` entity
and a dependent `ReportImage` entity backed by a relational store.

Modelling choices:
* The relational store is a `DB`: a list of report rows, a list of image
  rows, and the store's auto-increment counter `nextId` (the store assigns
  the numeric id on insert; `db.refresh` makes it visible).
* The SQL expression `func.cast(Report.created_date, DateTime)` used by the
  `order_by` clauses is a collaborator (database) computation on the text
  column; it is embedded as an explicit parameter `castDate : String → Nat`
  mapping the stored text to a totally ordered key, and `... .desc()`
  becomes sorting in descending key order.
* `offset`/`limit` on a query become `List.drop`/`List.take` on the ordered
  row list.
* Python `str.replace` (every non-overlapping occurrence, left to right) is
  `replaceStr`.
* `HTTPException(404, detail)` is the `Except.error detail` branch of the
  handler's result; handlers that may raise also return the store so that
  "store unchanged" is expressible.
-/

/-- Row of the `Report` table (`app.models.Report`), as used by the router:
a numeric store-assigned id plus the fifteen text columns the request
schemas carry. -/
structure Report where
  id : Int
  title : String
  url : String
  category : String
  description : String
  summary : String
  toc : String
  highlights : String
  methodology : String
  meta_title : String
  meta_desc : String
  meta_keyword : String
  pages : String
  cover_img : String
  created_date : String
  faqs : String
  deriving Repr, DecidableEq

/-- Modelled from the spec: `CreateReportImageRequest` lives in
`app/routers/report_image.py`, which is not part of the given sources; the
spec (§3, ReportImage) says it carries an image name field `img_name` that
may contain a placeholder token, the other mirrored fields being "not
detailed in this excerpt beyond name substitution". We model the name
field. -/
structure CreateReportImageRequest where
  img_name : String
  deriving Repr, DecidableEq

/-- Row of the `ReportImage` table as produced by `create_report`
(`ReportImage(**image.dict())`): the fields of the image request after
placeholder substitution. -/
structure ReportImage where
  img_name : String
  deriving Repr, DecidableEq

/-- Body schema `CreateReportRequest`: all report fields except the id. -/
structure CreateReportRequest where
  title : String
  url : String
  category : String
  description : String
  summary : String
  toc : String
  highlights : String
  methodology : String
  meta_title : String
  meta_desc : String
  meta_keyword : String
  pages : String
  cover_img : String
  created_date : String
  faqs : String
  deriving Repr, DecidableEq

/-- Body schema `CreateReportWithImagesRequest`. -/
structure CreateReportWithImagesRequest where
  report : CreateReportRequest
  images : List CreateReportImageRequest
  deriving Repr, DecidableEq

/-- Body schema `UpdateReportRequest`: id plus every report field. -/
structure UpdateReportRequest where
  id : Int
  title : String
  url : String
  category : String
  description : String
  summary : String
  toc : String
  highlights : String
  methodology : String
  meta_title : String
  meta_desc : String
  meta_keyword : String
  pages : String
  cover_img : String
  created_date : String
  faqs : String
  deriving Repr, DecidableEq

/-- Response schema of `GET /` rows. -/
structure ReportListSchema where
  id : Int
  title : String
  url : String
  category : String
  summary : String
  deriving Repr, DecidableEq

/-- Response schema of search / by-category rows. -/
structure CategoryReportListSchema where
  id : Int
  url : String
  category : String
  title : String
  summary : String
  pages : String
  created_date : String
  deriving Repr, DecidableEq

/-- Response schema of `GET /latest` rows. -/
structure LatestReportListSchema where
  id : Int
  url : String
  category : String
  title : String
  summary : String
  pages : String
  cover_img : String
  created_date : String
  deriving Repr, DecidableEq

/-- The relational store: report rows, image rows, and the store's
auto-increment counter for `Report.id`. -/
structure DB where
  reports : List Report
  images : List ReportImage
  nextId : Int
  deriving Repr, DecidableEq

/-! ## String helpers (Python collaborators) -/

/-- Worker for `replaceStr`. The `skip` counter consumes characters that
belong to an occurrence already replaced. Matches Python `str.replace`:
left-to-right, non-overlapping, every occurrence (non-empty pattern). -/
def replaceGo (pat repl : List Char) : List Char → Nat → List Char
  | [], _ => []
  | _ :: rest, Nat.succ k => replaceGo pat repl rest k
  | c :: rest, 0 =>
    if pat.isPrefixOf (c :: rest) && !pat.isEmpty then
      repl ++ replaceGo pat repl rest (pat.length - 1)
    else
      c :: replaceGo pat repl rest 0

/-- Python `s.replace(pat, repl)` for a non-empty pattern. -/
def replaceStr (pat repl s : String) : String :=
  ⟨replaceGo pat.data repl.data s.data 0⟩

/-- Test that `needle` occurs as a contiguous substring of `hay`. -/
def containsSub (needle hay : List Char) : Bool :=
  match hay with
  | [] => needle.isEmpty
  | _ :: rest => needle.isPrefixOf hay || containsSub needle rest

/-- Lower-case every character of a string. -/
def lowerStr (s : String) : String :=
  ⟨s.data.map Char.toLower⟩

/-- The SQL filter `Report.title.ilike(f'%{keyword}%')`: case-insensitive
containment of the keyword in the title, and in the title only. -/
def titleMatch (keyword : String) (r : Report) : Bool :=
  containsSub (lowerStr keyword).data (lowerStr r.title).data

/-! ## Ordering and pagination -/

/-- The offset `(page - 1) * per_page`, exactly as each paginated handler
computes it (no lower-bound validation on `page`/`per_page`). -/
def pageOffset (page per_page : Int) : Int :=
  (page - 1) * per_page

/-- The slice `query.offset(offset).limit(per_page)` on an already ordered row list.
(A negative offset or limit reaches the store as such; the store's
behaviour there is undefined — the model clamps at 0, which no claim
relies on.) -/
def pageSlice {α : Type} (page per_page : Int) (l : List α) : List α :=
  (l.drop (pageOffset page per_page).toNat).take per_page.toNat

/-- Insert a row into a list kept in descending key order. -/
def insertDesc (key : Report → Nat) (r : Report) : List Report → List Report
  | [] => [r]
  | x :: xs => if key x ≤ key r then r :: x :: xs else x :: insertDesc key r xs

/-- The ordering `order_by(key.desc())`: sort rows in descending key order. -/
def sortDesc (key : Report → Nat) : List Report → List Report
  | [] => []
  | x :: xs => insertDesc key x (sortDesc key xs)

/-- Projection used by `GET /` (`with_entities(id, url, category, summary,
title)`). -/
def listProj (r : Report) : ReportListSchema :=
  { id := r.id, title := r.title, url := r.url, category := r.category,
    summary := r.summary }

/-- Projection used by search and by-category listings. -/
def catProj (r : Report) : CategoryReportListSchema :=
  { id := r.id, url := r.url, category := r.category, title := r.title,
    summary := r.summary, pages := r.pages, created_date := r.created_date }

/-- Projection used by `GET /latest`. -/
def latestProj (r : Report) : LatestReportListSchema :=
  { id := r.id, url := r.url, category := r.category, title := r.title,
    summary := r.summary, pages := r.pages, cover_img := r.cover_img,
    created_date := r.created_date }

/-! ## Handlers -/

/-- Handler of `GET /` — list every report, projected, no pagination. -/
def get_reports (db : DB) : List ReportListSchema :=
  db.reports.map listProj

/-- Handler of `GET /category/category_count` —
`query(Report.category, func.count(Report.category)).group_by(Report.category)`:
one `(category, count)` pair per distinct category value. -/
def get_category_count (db : DB) : List (String × Nat) :=
  (db.reports.map Report.category).dedup.map
    (fun c => (c, (db.reports.filter (fun r => r.category == c)).length))

/-- Handler of `GET /latest` — order by the cast of `created_date` descending, then
offset/limit, then project. -/
def get_latest_reports (castDate : String → Nat) (page per_page : Int)
    (db : DB) : List LatestReportListSchema :=
  (pageSlice page per_page
    (sortDesc (fun r => castDate r.created_date) db.reports)).map latestProj

/-- Handler of `GET /search` — filter by `title.ilike('%keyword%')`, order by the cast
of `created_date` descending, offset/limit, project. -/
def get_searched_reports (castDate : String → Nat) (page per_page : Int)
    (keyword : String) (db : DB) : List CategoryReportListSchema :=
  (pageSlice page per_page
    (sortDesc (fun r => castDate r.created_date)
      (db.reports.filter (titleMatch keyword)))).map catProj

/-- Handler of `GET /{report_id}` — `filter(Report.id == report_id).first()`, wrapped
as `{"data": ...}`; `first()` is `none` when no row matches, and no
exception is ever raised on this path. -/
def get_report_by_id (report_id : Int) (db : DB) : Option Report :=
  db.reports.find? (fun r => r.id == report_id)

/-- Handler of `GET /category/{category}` — raises 404 when `category is None`
(and only then); otherwise filter by exact category equality, order by the
cast of `created_date` descending, offset/limit, project. -/
def get_reports_by_category (castDate : String → Nat)
    (category : Option String) (page per_page : Int) (db : DB) :
    Except String (List CategoryReportListSchema) :=
  match category with
  | none => .error "Category not found"
  | some c =>
    .ok ((pageSlice page per_page
      (sortDesc (fun r => castDate r.created_date)
        (db.reports.filter (fun r => r.category == c)))).map catProj)

/-- The report row inserted by `create_report`: the request's fields plus
the store-assigned id. -/
def reportOfCreate (rid : Int) (req : CreateReportRequest) : Report :=
  { id := rid, title := req.title, url := req.url, category := req.category,
    description := req.description, summary := req.summary, toc := req.toc,
    highlights := req.highlights, methodology := req.methodology,
    meta_title := req.meta_title, meta_desc := req.meta_desc,
    meta_keyword := req.meta_keyword, pages := req.pages,
    cover_img := req.cover_img, created_date := req.created_date,
    faqs := req.faqs }

/-- The image row inserted for one image spec:
`image.img_name = image.img_name.replace("XXX", str(db_report.id))` then
`ReportImage(**image.dict())`. -/
def imageOfCreate (rid : Int) (img : CreateReportImageRequest) : ReportImage :=
  { img_name := replaceStr "XXX" (toString rid) img.img_name }

/-- Handler of `POST /` — insert the report row (the store assigns `nextId` as its id
and bumps the counter), then insert one image row per image spec with the
placeholder token substituted; respond `"Report Added Successfully"`. -/
def create_report (req : CreateReportWithImagesRequest) (db : DB) :
    DB × String :=
  let rid := db.nextId
  ({ reports := db.reports ++ [reportOfCreate rid req.report],
     images := db.images ++ req.images.map (imageOfCreate rid),
     nextId := rid + 1 },
   "Report Added Successfully")

/-- The report row after `update_report`'s
`for attr, value in new_report.dict().items(): setattr(existing, attr, value)`:
every attribute of the row, `id` included, is overwritten with the
submitted value, independent of the previous row. -/
def reportOfUpdate (u : UpdateReportRequest) : Report :=
  { id := u.id, title := u.title, url := u.url, category := u.category,
    description := u.description, summary := u.summary, toc := u.toc,
    highlights := u.highlights, methodology := u.methodology,
    meta_title := u.meta_title, meta_desc := u.meta_desc,
    meta_keyword := u.meta_keyword, pages := u.pages,
    cover_img := u.cover_img, created_date := u.created_date,
    faqs := u.faqs }

/-- Replace the first row satisfying `p` by `f` of it (mutating the single
ORM object returned by `.first()`). -/
def updateFirst (p : Report → Bool) (f : Report → Report) :
    List Report → List Report
  | [] => []
  | r :: rest => if p r then f r :: rest else r :: updateFirst p f rest

/-- The body of `PUT /{report_id}` — look up the first row with the body's
id; 404 (store untouched) when absent; otherwise overwrite every field of
that row with the submitted values, commit, and return the refreshed row. -/
def update_report (u : UpdateReportRequest) (db : DB) :
    DB × Except String Report :=
  match db.reports.find? (fun r => r.id == u.id) with
  | none => (db, .error "Report not found")
  | some _ =>
    let rows := updateFirst (fun r => r.id == u.id)
      (fun _ => reportOfUpdate u) db.reports
    ({ db with reports := rows }, .ok (reportOfUpdate u))

/-- The full route `PUT /{report_id}`: the path carries a `report_id`
segment, but the handler's signature binds only the body and the session,
so the path value never reaches the handler. -/
def update_report_route (_report_id : Int) (u : UpdateReportRequest)
    (db : DB) : DB × Except String Report :=
  update_report u db

/-- Remove the first row satisfying `p` (the single ORM object `.first()`
returned, passed to `db.delete`). -/
def eraseFirst (p : Report → Bool) : List Report → List Report
  | [] => []
  | r :: rest => if p r then rest else r :: eraseFirst p rest

/-- Handler of `DELETE /{report_id}` — 404 (store untouched) when no row has the id;
otherwise delete that row and respond `"Report deleted"`. -/
def delete_report (report_id : Int) (db : DB) : DB × Except String String :=
  match db.reports.find? (fun r => r.id == report_id) with
  | none => (db, .error "Report not found")
  | some _ =>
    let rows := eraseFirst (fun r => r.id == report_id) db.reports
    ({ db with reports := rows }, .ok "Report deleted")

/-! ## Helper lemmas -/

theorem find?_append_cons (p : Report → Bool) (l₁ : List Report) (r : Report)
    (l₂ : List Report) (h₁ : ∀ x ∈ l₁, p x = false) (hr : p r = true) :
    List.find? p (l₁ ++ r :: l₂) = some r := by
  induction l₁ with
  | nil => simpa using List.find?_cons_of_pos l₂ hr
  | cons a t ih =>
    have ha : ¬ p a = true := by simp [h₁ a (by simp)]
    rw [List.cons_append, List.find?_cons_of_neg _ ha]
    exact ih (fun x hx => h₁ x (by simp [hx]))

theorem updateFirst_append_cons (p : Report → Bool) (f : Report → Report)
    (l₁ : List Report) (r : Report) (l₂ : List Report)
    (h₁ : ∀ x ∈ l₁, p x = false) (hr : p r = true) :
    updateFirst p f (l₁ ++ r :: l₂) = l₁ ++ f r :: l₂ := by
  induction l₁ with
  | nil => simp [updateFirst, hr]
  | cons a t ih =>
    have ha := h₁ a (by simp)
    simp [List.cons_append, updateFirst, ha,
      ih (fun x hx => h₁ x (by simp [hx]))]

theorem eraseFirst_append_cons (p : Report → Bool)
    (l₁ : List Report) (r : Report) (l₂ : List Report)
    (h₁ : ∀ x ∈ l₁, p x = false) (hr : p r = true) :
    eraseFirst p (l₁ ++ r :: l₂) = l₁ ++ l₂ := by
  induction l₁ with
  | nil => simp [eraseFirst, hr]
  | cons a t ih =>
    have ha := h₁ a (by simp)
    simp [eraseFirst, ha, ih (fun x hx => h₁ x (by simp [hx]))]

theorem updateFirst_map_id (p : Report → Bool) (f : Report → Report)
    (l : List Report) (hf : ∀ x, p x = true → (f x).id = x.id) :
    (updateFirst p f l).map Report.id = l.map Report.id := by
  induction l with
  | nil => rfl
  | cons a t ih =>
    by_cases ha : p a = true
    · simp [updateFirst, ha, hf a ha]
    · simp [updateFirst, ha, ih]

theorem find?_eraseFirst_nodup (rid : Int) (l : List Report)
    (h : (l.map Report.id).Nodup) :
    (eraseFirst (fun r => r.id == rid) l).find? (fun r => r.id == rid)
      = none := by
  induction l with
  | nil => rfl
  | cons a t ih =>
    rw [List.map_cons, List.nodup_cons] at h
    by_cases ha : (a.id == rid) = true
    · have haid : a.id = rid := by simpa using ha
      simp only [eraseFirst, ha, if_pos]
      refine List.find?_eq_none.mpr (fun x hx => ?_)
      intro hxid
      have : x.id = a.id := by
        have : x.id = rid := by simpa using hxid
        simp [this, haid]
      exact h.1 (this ▸ List.mem_map_of_mem Report.id hx)
    · simp only [eraseFirst, ha, if_neg, Bool.false_eq_true, not_false_eq_true]
      rw [List.find?_cons_of_neg _ (by simp [ha])]
      exact ih h.2

theorem insertDesc_of_lt (key : Report → Nat) (r : Report) (l : List Report)
    (h : ∀ y ∈ l, key r < key y) : insertDesc key r l = l ++ [r] := by
  induction l with
  | nil => rfl
  | cons x xs ih =>
    have hx : ¬ key x ≤ key r := not_le.mpr (h x (by simp))
    simp [insertDesc, hx, ih (fun y hy => h y (by simp [hy]))]

theorem sortDesc_of_pairwise_lt (key : Report → Nat) (l : List Report)
    (h : List.Pairwise (fun a b => key a < key b) l) :
    sortDesc key l = l.reverse := by
  induction l with
  | nil => rfl
  | cons x xs ih =>
    rw [List.pairwise_cons] at h
    rw [sortDesc, ih h.2,
      insertDesc_of_lt key x xs.reverse
        (fun y hy => h.1 y (List.mem_reverse.mp hy)),
      List.reverse_cons]

theorem mem_insertDesc (key : Report → Nat) (r x : Report) (l : List Report)
    (h : x ∈ insertDesc key r l) : x = r ∨ x ∈ l := by
  induction l with
  | nil => simpa [insertDesc] using h
  | cons a t ih =>
    by_cases ha : key a ≤ key r
    · simp only [insertDesc, ha, if_pos] at h
      simpa using h
    · simp only [insertDesc, ha, if_neg, not_false_eq_true,
        List.mem_cons] at h
      rcases h with h | h
      · exact Or.inr (by simp [h])
      · rcases ih h with h | h
        · exact Or.inl h
        · exact Or.inr (by simp [h])

theorem mem_sortDesc (key : Report → Nat) (x : Report) (l : List Report)
    (h : x ∈ sortDesc key l) : x ∈ l := by
  induction l with
  | nil => simp [sortDesc] at h
  | cons a t ih =>
    rw [sortDesc] at h
    rcases mem_insertDesc key a x (sortDesc key t) h with h | h
    · simp [h]
    · simp [ih h]

theorem dedup_toFinset {α : Type} [DecidableEq α] (l : List α) :
    l.dedup.toFinset = l.toFinset := by
  ext a
  simp [List.mem_toFinset, List.mem_dedup]

theorem sum_map_count_dedup {α : Type} [DecidableEq α] (l : List α) :
    (l.dedup.map (fun c => l.count c)).sum = l.length := by
  rw [← List.sum_toFinset _ l.nodup_dedup, dedup_toFinset,
    List.sum_toFinset_count_eq_length]

/-! ## Concrete example data -/

/-- A concrete create-request body. -/
def crEx : CreateReportRequest :=
  { title := "Alpha Market Report", url := "alpha-market-report",
    category := "Chemicals", description := "desc", summary := "sum",
    toc := "toc", highlights := "hl", methodology := "meth",
    meta_title := "mt", meta_desc := "md", meta_keyword := "mk",
    pages := "120", cover_img := "cover.png", created_date := "2023-05-01",
    faqs := "faqs" }

/-- A concrete create request with no images. -/
def reqEx : CreateReportWithImagesRequest := { report := crEx, images := [] }

/-- A fresh store. -/
def dbEmpty : DB := { reports := [], images := [], nextId := 1 }

/-- The row `crEx` produces when inserted into `dbEmpty`. -/
def rEx : Report := reportOfCreate 1 crEx

/-- A store holding exactly the row `rEx`. -/
def dbOne : DB := { reports := [rEx], images := [], nextId := 2 }

/-- A concrete full-update body targeting id 1. -/
def uEx : UpdateReportRequest :=
  { id := 1, title := "Beta Market Report", url := "beta-market-report",
    category := "Energy", description := "d2", summary := "s2", toc := "t2",
    highlights := "h2", methodology := "m2", meta_title := "mt2",
    meta_desc := "md2", meta_keyword := "mk2", pages := "200",
    cover_img := "c2.png", created_date := "2023-06-01", faqs := "f2" }

/-! ## Claims -/

/-- C1: after `create_report`, `get_report_by_id` at the id the store
assigned to the new row (the store's `nextId`, fresh in the store) returns
a record whose fifteen stored fields equal the fields submitted in the
create request. -/
theorem c1_create_get_roundtrip (req : CreateReportWithImagesRequest)
    (db : DB) (hfresh : ∀ r ∈ db.reports, r.id ≠ db.nextId) :
    ∃ r, get_report_by_id db.nextId (create_report req db).1 = some r ∧
      r.title = req.report.title ∧ r.url = req.report.url ∧
      r.category = req.report.category ∧
      r.description = req.report.description ∧
      r.summary = req.report.summary ∧ r.toc = req.report.toc ∧
      r.highlights = req.report.highlights ∧
      r.methodology = req.report.methodology ∧
      r.meta_title = req.report.meta_title ∧
      r.meta_desc = req.report.meta_desc ∧
      r.meta_keyword = req.report.meta_keyword ∧
      r.pages = req.report.pages ∧ r.cover_img = req.report.cover_img ∧
      r.created_date = req.report.created_date ∧
      r.faqs = req.report.faqs := by
  refine ⟨reportOfCreate db.nextId req.report, ?_, rfl, rfl, rfl, rfl, rfl,
    rfl, rfl, rfl, rfl, rfl, rfl, rfl, rfl, rfl, rfl⟩
  exact find?_append_cons (fun r => r.id == db.nextId) db.reports
    (reportOfCreate db.nextId req.report) []
    (fun x hx => beq_eq_false_iff_ne.mpr (hfresh x hx))
    (by simp [reportOfCreate])

/-- Witness for C1 at a concrete request and a fresh store. -/
theorem c1_witness :
    ∃ r, get_report_by_id dbEmpty.nextId (create_report reqEx dbEmpty).1
        = some r ∧
      r.title = reqEx.report.title ∧ r.url = reqEx.report.url ∧
      r.category = reqEx.report.category ∧
      r.description = reqEx.report.description ∧
      r.summary = reqEx.report.summary ∧ r.toc = reqEx.report.toc ∧
      r.highlights = reqEx.report.highlights ∧
      r.methodology = reqEx.report.methodology ∧
      r.meta_title = reqEx.report.meta_title ∧
      r.meta_desc = reqEx.report.meta_desc ∧
      r.meta_keyword = reqEx.report.meta_keyword ∧
      r.pages = reqEx.report.pages ∧ r.cover_img = reqEx.report.cover_img ∧
      r.created_date = reqEx.report.created_date ∧
      r.faqs = reqEx.report.faqs :=
  c1_create_get_roundtrip reqEx dbEmpty (by simp [dbEmpty])

/-- C2: `update_report` answers the not-found error iff no stored report
has the submitted id, and then leaves the store unchanged; when the first
report with that id exists at some position, every field of that stored
row is overwritten with the submitted values and the updated record is
returned. -/
theorem c2_update_semantics (u : UpdateReportRequest) (db : DB) :
    ((update_report u db).2 = Except.error "Report not found"
        ↔ ∀ r ∈ db.reports, r.id ≠ u.id) ∧
    ((∀ r ∈ db.reports, r.id ≠ u.id) → (update_report u db).1 = db) ∧
    (∀ l₁ r l₂, db.reports = l₁ ++ r :: l₂ → (∀ x ∈ l₁, x.id ≠ u.id) →
      r.id = u.id →
      update_report u db
        = ({ db with reports := l₁ ++ reportOfUpdate u :: l₂ },
           Except.ok (reportOfUpdate u))) ∧
    ((reportOfUpdate u).id = u.id ∧ (reportOfUpdate u).title = u.title ∧
      (reportOfUpdate u).url = u.url ∧
      (reportOfUpdate u).category = u.category ∧
      (reportOfUpdate u).description = u.description ∧
      (reportOfUpdate u).summary = u.summary ∧
      (reportOfUpdate u).toc = u.toc ∧
      (reportOfUpdate u).highlights = u.highlights ∧
      (reportOfUpdate u).methodology = u.methodology ∧
      (reportOfUpdate u).meta_title = u.meta_title ∧
      (reportOfUpdate u).meta_desc = u.meta_desc ∧
      (reportOfUpdate u).meta_keyword = u.meta_keyword ∧
      (reportOfUpdate u).pages = u.pages ∧
      (reportOfUpdate u).cover_img = u.cover_img ∧
      (reportOfUpdate u).created_date = u.created_date ∧
      (reportOfUpdate u).faqs = u.faqs) := by
  refine ⟨?_, ?_, ?_, rfl, rfl, rfl, rfl, rfl, rfl, rfl, rfl, rfl, rfl,
    rfl, rfl, rfl, rfl, rfl, rfl⟩
  · constructor
    · intro herr r hr hid
      cases h : db.reports.find? (fun x => x.id == u.id) with
      | none => exact (List.find?_eq_none.mp h r hr) (by simp [hid])
      | some x => simp [update_report, h] at herr
    · intro hall
      have hnone : db.reports.find? (fun x => x.id == u.id) = none :=
        List.find?_eq_none.mpr (fun x hx => by simp [hall x hx])
      simp [update_report, hnone]
  · intro hall
    have hnone : db.reports.find? (fun x => x.id == u.id) = none :=
      List.find?_eq_none.mpr (fun x hx => by simp [hall x hx])
    simp [update_report, hnone]
  · intro l₁ r l₂ hdec h₁ hr
    have hfind : db.reports.find? (fun x => x.id == u.id) = some r := by
      rw [hdec]
      exact find?_append_cons _ _ _ _
        (fun x hx => beq_eq_false_iff_ne.mpr (h₁ x hx)) (by simp [hr])
    have hupd : updateFirst (fun x => x.id == u.id)
        (fun _ => reportOfUpdate u) db.reports
          = l₁ ++ reportOfUpdate u :: l₂ := by
      rw [hdec]
      exact updateFirst_append_cons _ _ _ _ _
        (fun x hx => beq_eq_false_iff_ne.mpr (h₁ x hx)) (by simp [hr])
    simp [update_report, hfind, hupd]

/-- Witness for C2 at a concrete update hitting the only stored row. -/
theorem c2_witness :
    update_report uEx dbOne
      = ({ dbOne with reports := [] ++ reportOfUpdate uEx :: [] },
         Except.ok (reportOfUpdate uEx)) :=
  (c2_update_semantics uEx dbOne).2.2.1 [] rEx [] rfl (by simp) rfl

/-- C3: `delete_report` answers the not-found error iff no stored report
has the given id, and then leaves the store unchanged; deleting an
existing id succeeds (responding with the deletion message) and a
subsequent `get_report_by_id` for that id returns `none` inside the data
envelope, raising nothing. -/
theorem c3_delete_semantics (rid : Int) (db : DB) :
    ((delete_report rid db).2 = Except.error "Report not found"
        ↔ ∀ r ∈ db.reports, r.id ≠ rid) ∧
    ((∀ r ∈ db.reports, r.id ≠ rid) → (delete_report rid db).1 = db) ∧
    (∀ r ∈ db.reports, r.id = rid → (db.reports.map Report.id).Nodup →
      (delete_report rid db).2 = Except.ok "Report deleted" ∧
      get_report_by_id rid (delete_report rid db).1 = none) := by
  refine ⟨?_, ?_, ?_⟩
  · constructor
    · intro herr r hr hid
      cases h : db.reports.find? (fun x => x.id == rid) with
      | none => exact (List.find?_eq_none.mp h r hr) (by simp [hid])
      | some x => simp [delete_report, h] at herr
    · intro hall
      have hnone : db.reports.find? (fun x => x.id == rid) = none :=
        List.find?_eq_none.mpr (fun x hx => by simp [hall x hx])
      simp [delete_report, hnone]
  · intro hall
    have hnone : db.reports.find? (fun x => x.id == rid) = none :=
      List.find?_eq_none.mpr (fun x hx => by simp [hall x hx])
    simp [delete_report, hnone]
  · intro r hr hid hnd
    have hsome : (db.reports.find? (fun y => y.id == rid)).isSome := by
      rw [List.find?_isSome]
      exact ⟨r, hr, by simp [hid]⟩
    obtain ⟨x, hx⟩ := Option.isSome_iff_exists.mp hsome
    have h1 : (delete_report rid db).1.reports
        = eraseFirst (fun y => y.id == rid) db.reports := by
      simp [delete_report, hx]
    refine ⟨by simp [delete_report, hx], ?_⟩
    simp only [get_report_by_id, h1]
    exact find?_eraseFirst_nodup rid db.reports hnd

/-- Witness for C3 deleting the only stored row. -/
theorem c3_witness :
    (delete_report 1 dbOne).2 = Except.ok "Report deleted" ∧
    get_report_by_id 1 (delete_report 1 dbOne).1 = none :=
  (c3_delete_semantics 1 dbOne).2.2 rEx (by simp [dbOne]) rfl (by decide)

/-- C9: ids are immutable. `update_report` preserves the id of every
stored row — in particular the field-overwrite loop, which also writes the
submitted `id`, writes it onto the row that was selected by that very id —
and `create_report` leaves every existing id unchanged, only appending the
store-assigned fresh id. -/
theorem c9_id_immutable (u : UpdateReportRequest)
    (req : CreateReportWithImagesRequest) (db : DB) :
    (update_report u db).1.reports.map Report.id
        = db.reports.map Report.id ∧
    (create_report req db).1.reports.map Report.id
        = db.reports.map Report.id ++ [db.nextId] := by
  constructor
  · cases h : db.reports.find? (fun r => r.id == u.id) with
    | none => simp [update_report, h]
    | some x =>
      have hpres := updateFirst_map_id (fun r => r.id == u.id)
        (fun _ => reportOfUpdate u) db.reports
        (fun y hy => by
          have : y.id = u.id := by simpa using hy
          simp [reportOfUpdate, this])
      simp [update_report, h, hpres]
  · simp [create_report, reportOfCreate]

/-- C10: the `report_id` path segment of the update route never reaches
the handler, whose signature binds only the body and the session; any two
path values give identical store state and response. -/
theorem c10_path_id_ignored (a b : Int) (u : UpdateReportRequest)
    (db : DB) :
    update_report_route a u db = update_report_route b u db := rfl

/-- A fresh store whose next assigned id is 7. -/
def dbSeven : DB := { reports := [], images := [], nextId := 7 }

/-- C4: `create_report` inserts the report row first and obtains its
assigned id (the store's `nextId`); then for each image spec it replaces
the literal token "XXX" in the image-name field with that id rendered in
decimal and inserts the image row. In particular a request with two image
specs whose names contain the token yields exactly two image rows whose
names carry the new report's id in place of the token. -/
theorem c4_create_placeholder_substitution
    (req : CreateReportWithImagesRequest) (db : DB)
    (i₁ i₂ : CreateReportImageRequest) :
    ((create_report req db).1.reports
        = db.reports ++ [reportOfCreate db.nextId req.report]) ∧
    ((create_report req db).1.images
        = db.images ++ req.images.map (fun img =>
            (⟨replaceStr "XXX" (toString db.nextId) img.img_name⟩ :
              ReportImage))) ∧
    ((create_report { report := req.report, images := [i₁, i₂] } db).1.images
        = db.images
          ++ [⟨replaceStr "XXX" (toString db.nextId) i₁.img_name⟩,
              ⟨replaceStr "XXX" (toString db.nextId) i₂.img_name⟩]) ∧
    ((create_report ⟨crEx, [⟨"img_XXX_a.png"⟩, ⟨"banner_XXX.png"⟩]⟩
        dbSeven).1.images
        = [⟨"img_7_a.png"⟩, ⟨"banner_7.png"⟩]) ∧
    containsSub (toString dbSeven.nextId).data "img_7_a.png".data = true ∧
    containsSub (toString dbSeven.nextId).data "banner_7.png".data = true :=
  ⟨rfl, rfl, rfl, by decide, by decide, by decide⟩

/-- C5 counterexample: the claim says an empty-string category is treated
identically to null and also raises not-found; but the handler's guard is
`category is None` — an identity test, not a truthiness test — so the
empty string passes the guard and the handler returns an ordinary
(here empty) page instead of the not-found error. -/
theorem c5_counterexample :
    get_reports_by_category String.length (some "") 1 10 dbOne
        = Except.ok [] ∧
    get_reports_by_category String.length (some "") 1 10 dbOne
        ≠ Except.error "Category not found" := by
  refine ⟨rfl, ?_⟩
  intro h
  rw [show get_reports_by_category String.length (some "") 1 10 dbOne
      = Except.ok [] from rfl] at h
  exact Except.noConfusion h

/-- C5 amended: `get_reports_by_category` fails with the not-found error
exactly when the category is null; an empty-string category is not treated
as null — for every page and per_page the handler proceeds and returns the
page of reports whose category equals the given string (the empty string
included). -/
theorem c5_amended_category_null_check (castDate : String → Nat)
    (page per_page : Int) (db : DB) :
    (get_reports_by_category castDate none page per_page db
        = Except.error "Category not found") ∧
    (∀ c : String,
      get_reports_by_category castDate (some c) page per_page db
        = Except.ok ((pageSlice page per_page
            (sortDesc (fun r => castDate r.created_date)
              (db.reports.filter (fun r => r.category == c)))).map
                catProj)) :=
  ⟨rfl, fun _ => rfl⟩

/-- C6: every paginated listing computes the offset as
`(page - 1) * per_page` — negative whenever `page ≤ 0 < per_page` — and
`get_latest_reports` over twelve stored reports with strictly increasing
creation dates (under the store's date cast) answers page 2 of size 5
with exactly records 6 through 10 of the descending-date order. -/
theorem c6_latest_pagination (castDate : String → Nat) :
    (∀ page per_page : Int,
      pageOffset page per_page = (page - 1) * per_page ∧
      (page ≤ 0 → 0 < per_page → pageOffset page per_page < 0)) ∧
    (∀ r1 r2 r3 r4 r5 r6 r7 r8 r9 r10 r11 r12 : Report,
      ∀ (imgs : List ReportImage) (n : Int),
      List.Pairwise
        (fun a b => castDate a.created_date < castDate b.created_date)
        [r1, r2, r3, r4, r5, r6, r7, r8, r9, r10, r11, r12] →
      get_latest_reports castDate 2 5
          ⟨[r1, r2, r3, r4, r5, r6, r7, r8, r9, r10, r11, r12], imgs, n⟩
        = [latestProj r7, latestProj r6, latestProj r5, latestProj r4,
           latestProj r3]) := by
  constructor
  · intro page per_page
    refine ⟨rfl, fun hp hpp => ?_⟩
    have h1 : page - 1 < 0 := by omega
    exact mul_neg_of_neg_of_pos h1 hpp
  · intro r1 r2 r3 r4 r5 r6 r7 r8 r9 r10 r11 r12 imgs n hp
    have hs := sortDesc_of_pairwise_lt
      (fun r => castDate r.created_date) _ hp
    simp only [get_latest_reports]
    rw [hs]
    rfl

/-- The k-th sample report: its creation date is a string of length k, so
its date key under the `String.length` cast is k. -/
def rN (k : Nat) : Report :=
  { id := Int.ofNat k, title := "T", url := "u", category := "c",
    description := "d", summary := "s", toc := "t", highlights := "h",
    methodology := "m", meta_title := "mt", meta_desc := "md",
    meta_keyword := "mk", pages := "10", cover_img := "cv",
    created_date := String.mk (List.replicate k 'd'), faqs := "f" }

/-- Witness for C6: a negative offset at page 0, and the concrete
twelve-report page. -/
theorem c6_witness :
    pageOffset 0 5 < 0 ∧
    get_latest_reports String.length 2 5
        ⟨[rN 1, rN 2, rN 3, rN 4, rN 5, rN 6, rN 7, rN 8, rN 9, rN 10,
          rN 11, rN 12], [], 13⟩
      = [latestProj (rN 7), latestProj (rN 6), latestProj (rN 5),
         latestProj (rN 4), latestProj (rN 3)] :=
  ⟨((c6_latest_pagination String.length).1 0 5).2 (by decide) (by decide),
   (c6_latest_pagination String.length).2 (rN 1) (rN 2) (rN 3) (rN 4)
     (rN 5) (rN 6) (rN 7) (rN 8) (rN 9) (rN 10) (rN 11) (rN 12) [] 13
     (by decide)⟩

/-- C7: every record `get_searched_reports` returns comes from a stored
report whose title contains the keyword case-insensitively; the filter
reads the title and no other field; and when the keyword matches exactly
one stored title, page 1 (any positive size) is exactly that report. -/
theorem c7_search_title_filter (castDate : String → Nat) :
    (∀ (page per_page : Int) (kw : String) (db : DB) x,
      x ∈ get_searched_reports castDate page per_page kw db →
      ∃ r, r ∈ db.reports ∧ titleMatch kw r = true ∧ x = catProj r) ∧
    (∀ (kw : String) (r r' : Report), r.title = r'.title →
      titleMatch kw r = titleMatch kw r') ∧
    (∀ (per_page : Int) (kw : String) (db : DB) (r : Report),
      db.reports.filter (titleMatch kw) = [r] → 1 ≤ per_page →
      get_searched_reports castDate 1 per_page kw db = [catProj r]) := by
  refine ⟨?_, ?_, ?_⟩
  · intro page per_page kw db x hx
    simp only [get_searched_reports, pageSlice, List.mem_map] at hx
    obtain ⟨y, hy, rfl⟩ := hx
    have hy2 := List.mem_of_mem_drop (List.mem_of_mem_take hy)
    have hy3 := mem_sortDesc (fun r => castDate r.created_date) y _ hy2
    rw [List.mem_filter] at hy3
    exact ⟨y, hy3.1, hy3.2, rfl⟩
  · intro kw r r' h
    simp [titleMatch, lowerStr, h]
  · intro per_page kw db r hfilter hpp
    simp only [get_searched_reports, hfilter]
    have h1 : sortDesc (fun x => castDate x.created_date) [r] = [r] := rfl
    rw [h1]
    have h2 : (1 : Nat) ≤ per_page.toNat := by omega
    calc (pageSlice 1 per_page [r]).map catProj
        = ([r].take per_page.toNat).map catProj := by
          simp [pageSlice, pageOffset]
      _ = [catProj r] := by
          rw [List.take_of_length_le (by simpa using h2)]
          rfl

/-- A second sample report whose title does not contain "alpha". -/
def betaR : Report :=
  { id := 2, title := "Beta Industry Outlook", url := "beta-industry",
    category := "Energy", description := "d", summary := "s", toc := "t",
    highlights := "h", methodology := "m", meta_title := "mt",
    meta_desc := "md", meta_keyword := "mk", pages := "90",
    cover_img := "c", created_date := "2023-04-01", faqs := "f" }

/-- A store with one title matching "ALPHA" case-insensitively. -/
def dbSearch : DB := { reports := [rEx, betaR], images := [], nextId := 3 }

/-- Witness for C7: keyword "ALPHA" against stored "Alpha Market Report"
returns exactly that report. -/
theorem c7_witness :
    dbSearch.reports.filter (titleMatch "ALPHA") = [rEx] ∧
    get_searched_reports String.length 1 10 "ALPHA" dbSearch
      = [catProj rEx] :=
  ⟨by decide,
   (c7_search_title_filter String.length).2.2 10 "ALPHA" dbSearch rEx
     (by decide) (by decide)⟩

/-- C8: `get_category_count` returns one entry per distinct category value
(no duplicates, and a category appears among the entries iff some stored
report carries it), each entry holding the count of reports in that
category, and the counts sum to the total number of stored reports. -/
theorem c8_category_count (db : DB) :
    ((get_category_count db).map Prod.fst).Nodup ∧
    (∀ c : String, c ∈ (get_category_count db).map Prod.fst
        ↔ c ∈ db.reports.map Report.category) ∧
    (∀ e ∈ get_category_count db,
      e.2 = (db.reports.filter (fun r => r.category == e.1)).length) ∧
    ((get_category_count db).map Prod.snd).sum = db.reports.length := by
  refine ⟨?_, ?_, ?_, ?_⟩
  · simp only [get_category_count, List.map_map]
    have hcomp : (Prod.fst ∘ fun c =>
        (c, (db.reports.filter (fun r => r.category == c)).length))
          = id := rfl
    rw [hcomp, List.map_id]
    exact (db.reports.map Report.category).nodup_dedup
  · intro c
    simp [get_category_count, List.mem_dedup]
  · intro e he
    simp only [get_category_count, List.mem_map] at he
    obtain ⟨c, hc, rfl⟩ := he
    rfl
  · simp only [get_category_count, List.map_map]
    have hcomp : (Prod.snd ∘ fun c =>
        (c, (db.reports.filter (fun r => r.category == c)).length))
          = fun c =>
              (db.reports.filter (fun r => r.category == c)).length := rfl
    rw [hcomp]
    have hlen : ∀ c : String,
        (db.reports.filter (fun r => r.category == c)).length
          = (db.reports.map Report.category).count c := by
      intro c
      rw [List.count_eq_countP, List.countP_map,
        List.countP_eq_length_filter]
      rfl
    simp only [hlen]
    rw [sum_map_count_dedup (db.reports.map Report.category)]
    simp

/-- Witness for C8 on a concrete two-category store. -/
theorem c8_witness :
    (("Chemicals", 1) : String × Nat).2
        = (dbSearch.reports.filter
            (fun r => r.category == "Chemicals")).length ∧
    ((get_category_count dbSearch).map Prod.snd).sum
        = dbSearch.reports.length :=
  ⟨(c8_category_count dbSearch).2.2.1 ("Chemicals", 1) (by decide),
   (c8_category_count dbSearch).2.2.2⟩
